import Mathlib

/-!
Verification of the Mouth High recording and transcription front end.

The repository sources under scrutiny are the React/TypeScript front end
(App.tsx, SettingsPage.tsx, HotkeyRecorder.tsx, RecordingBarWindow.tsx and
the unnamed variants).  The Rust backend (the Activation Controller, the
hotkey registration, and the History and Usage Store) is not part of the
sources, so the backend commands are modelled from the specification where
a claim needs them; every such definition carries a doc comment starting
with "Modelled from the spec:".  JavaScript numbers are modelled as
rationals and JavaScript strings as Lean strings over their character
lists; the ASCII fragments of `toLowerCase`, `toUpperCase`, `trim`,
`startsWith` and `includes` are modelled explicitly below.
-/

/-- ASCII fragment of the JavaScript `String.prototype.toLowerCase` applied
to one character: an upper-case ASCII letter (code point 65 to 90) is moved
down by 32, every other character is unchanged. -/
def lowerChar (c : Char) : Char :=
  if 65 ≤ c.toNat ∧ c.toNat ≤ 90 then Char.ofNat (c.toNat + 32) else c

/-- ASCII fragment of the JavaScript `String.prototype.toUpperCase` applied
to one character. -/
def upperChar (c : Char) : Char :=
  if 97 ≤ c.toNat ∧ c.toNat ≤ 122 then Char.ofNat (c.toNat - 32) else c

/-- JavaScript `s.toLowerCase()` (ASCII fragment), character by character. -/
def jsToLower (s : String) : String := String.mk (s.data.map lowerChar)

/-- JavaScript `s.toUpperCase()` (ASCII fragment), character by character. -/
def jsToUpper (s : String) : String := String.mk (s.data.map upperChar)

/-- JavaScript `s.charAt(0).toUpperCase() + s.slice(1)` as used by the
hotkey formatting code on non-mac platforms. -/
def jsCapitalize (s : String) : String :=
  match s.data with
  | [] => ""
  | c :: cs => String.mk (upperChar c :: cs)

/-- Whether a pattern is an initial run of a character list (JavaScript
`startsWith`, executable form). -/
def leadMatch : List Char → List Char → Bool
  | [], _ => true
  | _ :: _, [] => false
  | p :: ps, c :: cs => p = c && leadMatch ps cs

/-- JavaScript `s.startsWith(pat)`. -/
def jsStartsWith (s pat : String) : Bool := leadMatch pat.data s.data

/-- Whether a pattern occurs as a contiguous run inside a character list. -/
def occursIn (pat : List Char) : List Char → Bool
  | [] => leadMatch pat []
  | c :: cs => leadMatch pat (c :: cs) || occursIn pat cs

/-- JavaScript `s.includes(pat)`. -/
def jsIncludes (s pat : String) : Bool := occursIn pat.data s.data

/-- The white-space characters removed by JavaScript `trim` (ASCII
fragment: space, tab, line feed, carriage return, vertical tab, form
feed). -/
def isJsWhitespace (c : Char) : Bool :=
  c = ' ' || c = '\t' || c = '\n' || c = '\r' || c = '\x0b' || c = '\x0c'

/-- JavaScript `s.trim()`: drop white space from both ends. -/
def jsTrim (s : String) : String :=
  String.mk (((s.data.dropWhile isJsWhitespace).reverse.dropWhile isJsWhitespace).reverse)

/-- A JavaScript `audio-amplitude` event payload after the handler's
`typeof`/`Number(...)` coercion in RecordingBarWindow (the unnamed variant
listening on the webview window): either a finite numeric value, or a
non-finite result (`NaN` or an infinity, including every non-numeric
payload whose coercion is non-finite). -/
inductive AmplitudeRaw
  | finite (value : ℚ)
  | nonFinite
deriving DecidableEq

/-- `const clamped = Number.isFinite(raw) ? Math.min(1, Math.max(0, raw)) : 0`. -/
def clampAmplitude : AmplitudeRaw → ℚ
  | .finite r => min 1 (max 0 r)
  | .nonFinite => 0

/-- `amplitudeRef.current += (clamped - amplitudeRef.current) * 0.25`. -/
def amplitudeStep (a : ℚ) (p : AmplitudeRaw) : ℚ :=
  a + (clampAmplitude p - a) * (25 / 100)

/-- The smoothed amplitude after a sequence of `audio-amplitude` events,
starting from the initial `useRef(0.0)` value. -/
def amplitudeRun (ps : List AmplitudeRaw) : ℚ := ps.foldl amplitudeStep 0

/-- `target = Math.max(0.1, Math.min(1.0, target))`: the per-bar clamp used
by both waveform components (`setWaveform` in the unnamed
RecordingBarWindow variant and `animate` in RecordingBarWindow.tsx). -/
def clampBar (t : ℚ) : ℚ := max (10 / 100) (min 1 t)

/-- `next[i] = prev[i] * 0.6 + target * 0.4` after clamping the target. -/
def barStep (prev t : ℚ) : ℚ := prev * (60 / 100) + clampBar t * (40 / 100)

/-- One waveform bar after a sequence of update steps with the given raw
(unclamped) targets, from a given initial fill. -/
def barRun (init : ℚ) (ts : List ℚ) : ℚ := ts.foldl barStep init

/-- The status mirrored by the main window UI (App.tsx). -/
inductive AppStatus
  | idle
  | recording
  | processing
deriving DecidableEq

/-- The lifecycle events the main window listens to in App.tsx that touch
the status state (`hotkey-registered` and `recording-mode-changed` do not
write the status and are omitted). -/
inductive AppEvent
  | recordingStarted
  | processingStarted
  | transcript (text : String)
  | errorEvt (message : String)

/-- The status written by each listener registered in App.tsx: every
listener stores a fixed status, regardless of the previous one
(`recording-started` stores `recording`, `processing-started` stores
`processing`, `transcript` and `error` store `idle`). -/
def appHandleEvent : AppStatus → AppEvent → AppStatus
  | _, .recordingStarted => .recording
  | _, .processingStarted => .processing
  | _, .transcript _ => .idle
  | _, .errorEvt _ => .idle

/-- The phases of the Activation Controller state machine. -/
inductive Phase
  | idle
  | recording
  | processing
deriving DecidableEq

/-- Modelled from the spec: the Activation Controller state.  The Rust
backend holding the controller is not part of the front-end sources, so the
state is taken from spec section 4.1: the controller tracks the phase and a
monotonically increasing session id.  To make the one-session guarantee a
genuine theorem rather than a typing artifact, the audio sessions held open
by the Audio Capture Engine and the transcriptions in flight at the gateway
are modelled as lists of session ids. -/
structure Ctrl where
  phase : Phase
  sessionId : Nat
  openSessions : List Nat
  inflight : List Nat
deriving DecidableEq

/-- The inputs of the Activation Controller (spec section 4.1): an activate
edge, a stop edge (hold release, toggle press again, or an explicit stop),
an explicit cancel, and a gateway completion callback tagged with the
session id it was invoked for and whether it succeeded. -/
inductive CtrlEvent
  | activate
  | stopEdge
  | cancel
  | complete (sid : Nat) (ok : Bool)

/-- Modelled from the spec: the controller starts in `Idle` with no open
session and nothing in flight. -/
def ctrlInit : Ctrl := ⟨Phase.idle, 0, [], []⟩

/-- Modelled from the spec: one transition of the Activation Controller
(spec section 4.1), returning the next state and the session ids whose
transcript is delivered by the step.  `Idle` plus activate starts a new
session (incrementing the session id and opening an audio session); a stop
edge in `Recording` finalizes the audio session and hands the buffer to the
gateway; cancel in `Recording` aborts the audio session without
transcription; a completion in `Processing` whose session id matches the
tracked one delivers (on success) and returns to `Idle`; every other
combination, in particular a completion carrying a stale session id, is
ignored. -/
def ctrlStep (s : Ctrl) : CtrlEvent → Ctrl × List Nat
  | .activate =>
    match s.phase with
    | .idle =>
      (⟨Phase.recording, s.sessionId + 1, (s.sessionId + 1) :: s.openSessions, s.inflight⟩, [])
    | _ => (s, [])
  | .stopEdge =>
    match s.phase with
    | .recording => (⟨Phase.processing, s.sessionId, [], s.sessionId :: s.inflight⟩, [])
    | _ => (s, [])
  | .cancel =>
    match s.phase with
    | .recording => (⟨Phase.idle, s.sessionId, [], s.inflight⟩, [])
    | _ => (s, [])
  | .complete sid ok =>
    match s.phase with
    | .processing =>
      if sid = s.sessionId then
        (⟨Phase.idle, s.sessionId, s.openSessions, []⟩, if ok then [sid] else [])
      else (s, [])
    | _ => (s, [])

/-- The controller state reached from the initial state by a trace of
events. -/
def ctrlRun (tr : List CtrlEvent) : Ctrl :=
  tr.foldl (fun s e => (ctrlStep s e).1) ctrlInit

/-- The phase-indexed shape invariant of the controller: in `Idle` nothing
is open or in flight, in `Recording` exactly the current session is open,
in `Processing` exactly the current session is in flight. -/
def CtrlInv (s : Ctrl) : Prop :=
  (s.phase = Phase.idle → s.openSessions = [] ∧ s.inflight = []) ∧
  (s.phase = Phase.recording → s.openSessions = [s.sessionId] ∧ s.inflight = []) ∧
  (s.phase = Phase.processing → s.openSessions = [] ∧ s.inflight = [s.sessionId])

/-- The hotkey configuration shape shared by the front end and the
backend commands (`{ modifiers: string[], key: string }`). -/
structure HotkeyConfig where
  modifiers : List String
  key : String
deriving DecidableEq

/-- The `FUNCTION_KEYS` constant of SettingsPage.tsx. -/
def FUNCTION_KEYS : List String :=
  ["f1", "f2", "f3", "f4", "f5", "f6", "f7", "f8", "f9", "f10", "f11", "f12"]

/-- The `PRESET_HOTKEYS` constant of SettingsPage.tsx, reduced to the
configurations it submits (name, icon and description dropped). -/
def PRESET_HOTKEYS : List HotkeyConfig :=
  [⟨["ctrl"], "r"⟩, ⟨["cmd"], "r"⟩, ⟨[], "f5"⟩, ⟨[], "f8"⟩]

/-- What a hotkey submission handler does before any backend call: either
reject with an error message shown to the user, or go on to invoke the
`update_hotkey` command with the configuration. -/
inductive ApplyAction
  | rejected (message : String)
  | invokeUpdate (config : HotkeyConfig)
deriving DecidableEq

/-- The validation `applyHotkey` in SettingsPage.tsx performs before
invoking `update_hotkey`: it rejects every configuration whose modifier
list is empty, and the `space` key. -/
def applyHotkeyValidation (cfg : HotkeyConfig) : ApplyAction :=
  if cfg.modifiers.length = 0 then
    ApplyAction.rejected "请至少选择一个修饰键（如 Ctrl、Shift、Cmd）"
  else if cfg.key = "space" then
    ApplyAction.rejected "Space 键可能被系统限制，建议使用字母键或 F 键"
  else ApplyAction.invokeUpdate cfg

/-- The validation `saveHotkey` in HotkeyRecorder.tsx performs before
invoking `update_hotkey`: the same guards with its own messages. -/
def saveHotkeyValidation (cfg : HotkeyConfig) : ApplyAction :=
  if cfg.modifiers.length = 0 then
    ApplyAction.rejected "请至少按住一个修饰键（如 Cmd、Ctrl、Shift）"
  else if cfg.key = "space" then
    ApplyAction.rejected "Space 键可能被系统限制，建议使用字母键"
  else ApplyAction.invokeUpdate cfg

/-- The outcome of the backend `update_hotkey` command as seen by the
front end: resolved, or rejected with an error string. -/
inductive UpdateResult
  | ok
  | err (e : String)
deriving DecidableEq

/-- Modelled from the spec: the backend state queried by
`get_hotkey_config` — the currently registered binding.  The Rust hotkey
module is not part of the front-end sources. -/
structure HotkeyBackend where
  registered : HotkeyConfig
deriving DecidableEq

/-- Modelled from the spec: the backend `update_hotkey` command is atomic —
if OS registration (`osAccepts`) rejects the new accelerator it reports
the conflict and the previously registered binding remains authoritative;
on success the new binding becomes the registered one. -/
def updateHotkey (osAccepts : HotkeyConfig → Bool) (b : HotkeyBackend)
    (cfg : HotkeyConfig) : HotkeyBackend × UpdateResult :=
  if osAccepts cfg then (⟨cfg⟩, UpdateResult.ok)
  else (b, UpdateResult.err "RegisterEventHotKey failed")

/-- Modelled from the spec: the `get_hotkey_config` query returns the
registered binding. -/
def get_hotkey_config (b : HotkeyBackend) : HotkeyConfig := b.registered

/-- The pieces of SettingsPage.tsx state involved in applying a hotkey. -/
structure SettingsUiState where
  hotkeyConfig : HotkeyConfig
  currentHotkeyDisplay : String
  hotkeyError : String
deriving DecidableEq

/-- `formatHotkey` of SettingsPage.tsx (also App.tsx): each modifier is
rendered as its mac symbol or capitalized, the key upper-cased, all joined
with " + ". -/
def formatModifierPart (mac : Bool) (m : String) : String :=
  if mac then
    if m = "ctrl" then "⌃"
    else if m = "shift" then "⇧"
    else if m = "alt" then "⌥"
    else if m = "cmd" then "⌘"
    else m
  else jsCapitalize m

/-- `formatHotkey(config, mac)` of SettingsPage.tsx. -/
def formatHotkey (cfg : HotkeyConfig) (mac : Bool) : String :=
  String.intercalate " + " (cfg.modifiers.map (formatModifierPart mac) ++ [jsToUpper cfg.key])

/-- The error-message mapping of the `catch` branch of `applyHotkey` in
SettingsPage.tsx. -/
def mapApplyError (e : String) : String :=
  if jsIncludes e "RegisterEventHotKey failed" || jsIncludes e "os error" then
    "该快捷键已被系统或其他应用占用，请尝试：\n• 使用不同的字母键或 F 键\n• 添加更多修饰键组合\n• 检查系统偏好设置 > 键盘 > 快捷键"
  else if jsIncludes e "Space" then
    "Space 键被系统保留，请选择其他按键"
  else e

/-- `applyHotkey` of SettingsPage.tsx run against the (spec-modelled)
backend: validation first; when it passes, `update_hotkey` is invoked; on
success the displayed hotkey is set to the formatted new configuration and
the error cleared, on failure only the error message is set and the
display is left as it was. -/
def applyHotkey (mac : Bool) (osAccepts : HotkeyConfig → Bool)
    (st : SettingsUiState) (b : HotkeyBackend) : SettingsUiState × HotkeyBackend :=
  if st.hotkeyConfig.modifiers.length = 0 then
    ({ st with hotkeyError := "请至少选择一个修饰键（如 Ctrl、Shift、Cmd）" }, b)
  else if st.hotkeyConfig.key = "space" then
    ({ st with hotkeyError := "Space 键可能被系统限制，建议使用字母键或 F 键" }, b)
  else
    match updateHotkey osAccepts b st.hotkeyConfig with
    | (b1, UpdateResult.ok) =>
      ({ st with currentHotkeyDisplay := formatHotkey st.hotkeyConfig mac,
                 hotkeyError := "" }, b1)
    | (b1, UpdateResult.err e) =>
      ({ st with hotkeyError := mapApplyError e }, b1)

/-- A browser `KeyboardEvent`, reduced to the fields `handleKeyDown` in
HotkeyRecorder.tsx reads. -/
structure KeyEvent where
  key : String
  metaKey : Bool
  ctrlKey : Bool
  altKey : Bool
  shiftKey : Bool

/-- The combination captured by HotkeyRecorder.tsx. -/
structure CapturedKey where
  modifiers : List String
  key : String
deriving DecidableEq

/-- The pure-modifier key names `handleKeyDown` ignores. -/
def MODIFIER_KEY_NAMES : List String := ["Control", "Shift", "Alt", "Meta", "Cmd"]

/-- The modifier list `handleKeyDown` builds: `cmd` for `metaKey`, `ctrl`
for `ctrlKey`, `alt` for `altKey`, `shift` for `shiftKey`, pushed in that
order. -/
def capturedModifiers (e : KeyEvent) : List String :=
  (if e.metaKey then ["cmd"] else []) ++ (if e.ctrlKey then ["ctrl"] else []) ++
    (if e.altKey then ["alt"] else []) ++ (if e.shiftKey then ["shift"] else [])

/-- `handleKeyDown` of HotkeyRecorder.tsx (while recording): a pure
modifier press is ignored; otherwise the key is lower-cased, kept when it
starts with `f` and has length at most 3 or is a single character, and
otherwise the event is ignored. -/
def handleKeyDown (e : KeyEvent) : Option CapturedKey :=
  if e.key ∈ MODIFIER_KEY_NAMES then none
  else
    let key := jsToLower e.key
    if jsStartsWith key "f" ∧ key.length ≤ 3 then some ⟨capturedModifiers e, key⟩
    else if key.length = 1 then some ⟨capturedModifiers e, key⟩
    else none

/-- A history entry as the front end receives it from `get_history`. -/
structure HistoryItem where
  id : String
  text : String
  timestamp : Int
  date : String
  char_count : Nat
deriving DecidableEq

/-- The aggregate usage counters returned by `get_usage_stats`. -/
structure UsageStats where
  today_characters : Nat
  total_characters : Nat
  total_transcriptions : Nat
deriving DecidableEq

/-- `handleDelete` of the history page in App.tsx updates the local list
with `prev.filter(item => item.id !== id)`. -/
def handleDelete (l : List HistoryItem) (i : String) : List HistoryItem :=
  l.filter (fun item => item.id ≠ i)

/-- Modelled from the spec: the backend History and Usage Store (the Rust
store is not part of the front-end sources). -/
structure HistoryStore where
  items : List HistoryItem
  stats : UsageStats

/-- Modelled from the spec: the backend `delete_history_item` command
removes the items with the given id and "must not affect UsageStats
totals". -/
def deleteHistoryItem (s : HistoryStore) (i : String) : HistoryStore :=
  { items := s.items.filter (fun item => item.id ≠ i), stats := s.stats }

/-- Modelled from the spec: the backend `clear_history` command removes
all items and "must not affect UsageStats totals". -/
def clearHistory (s : HistoryStore) : HistoryStore :=
  { items := [], stats := s.stats }

/-- The `set_api_key` invocation made by every `handleSaveApiKey` handler
(the quick settings card and both settings pages are identical here):
`none` when the handler returns early because the trimmed key is empty
(falsy), otherwise the trimmed key passed as the command argument. -/
def handleSaveApiKey (apiKey : String) : Option String :=
  if jsTrim apiKey = "" then none else some (jsTrim apiKey)

/-- The Tauri command invoked by `handleCancel`, the recording bar's
cancel button handler (RecordingBarWindow.tsx and its unnamed variant). -/
def handleCancelCommand : String := "stop_recording"

/-- The Tauri command invoked by `handleConfirm`, the recording bar's
confirm button handler (RecordingBarWindow.tsx and its unnamed variant). -/
def handleConfirmCommand : String := "stop_recording"

theorem toNat_ofNat_lt (n : Nat) (h : n < 55296) : (Char.ofNat n).toNat = n := by
  unfold Char.ofNat
  rw [dif_pos (Or.inl h)]
  rfl

theorem lowerChar_not_upper (c : Char) :
    ¬(65 ≤ (lowerChar c).toNat ∧ (lowerChar c).toNat ≤ 90) := by
  unfold lowerChar
  split
  · rename_i h
    rw [toNat_ofNat_lt] <;> omega
  · rename_i h
    exact h

theorem clampAmplitude_bounds (p : AmplitudeRaw) :
    0 ≤ clampAmplitude p ∧ clampAmplitude p ≤ 1 := by
  cases p with
  | finite r =>
    refine ⟨le_min (by norm_num) (le_max_left 0 r), min_le_left 1 (max 0 r)⟩
  | nonFinite => exact ⟨le_refl 0, by norm_num [clampAmplitude]⟩

theorem amplitudeStep_bounds (a : ℚ) (p : AmplitudeRaw) (h0 : 0 ≤ a) (h1 : a ≤ 1) :
    0 ≤ amplitudeStep a p ∧ amplitudeStep a p ≤ 1 := by
  have hc := clampAmplitude_bounds p
  unfold amplitudeStep
  constructor <;> nlinarith [hc.1, hc.2]

theorem amplitudeFold_bounds (ps : List AmplitudeRaw) :
    ∀ a : ℚ, 0 ≤ a → a ≤ 1 →
      0 ≤ ps.foldl amplitudeStep a ∧ ps.foldl amplitudeStep a ≤ 1 := by
  induction ps with
  | nil => intro a h0 h1; exact ⟨h0, h1⟩
  | cons p ps ih =>
    intro a h0 h1
    have hs := amplitudeStep_bounds a p h0 h1
    simpa [List.foldl] using ih (amplitudeStep a p) hs.1 hs.2

theorem clampBar_bounds (t : ℚ) : 1 / 10 ≤ clampBar t ∧ clampBar t ≤ 1 := by
  unfold clampBar
  constructor
  · calc (1 : ℚ) / 10 = 10 / 100 := by norm_num
      _ ≤ max (10 / 100) (min 1 t) := le_max_left _ _
  · exact max_le (by norm_num) (min_le_left 1 t)

theorem barStep_bounds (prev t : ℚ) (h0 : 1 / 10 ≤ prev) (h1 : prev ≤ 1) :
    1 / 10 ≤ barStep prev t ∧ barStep prev t ≤ 1 := by
  have hc := clampBar_bounds t
  unfold barStep
  constructor <;> nlinarith [hc.1, hc.2]

theorem barFold_bounds (ts : List ℚ) :
    ∀ a : ℚ, 1 / 10 ≤ a → a ≤ 1 →
      1 / 10 ≤ ts.foldl barStep a ∧ ts.foldl barStep a ≤ 1 := by
  induction ts with
  | nil => intro a h0 h1; exact ⟨h0, h1⟩
  | cons t ts ih =>
    intro a h0 h1
    have hs := barStep_bounds a t h0 h1
    simpa [List.foldl] using ih (barStep a t) hs.1 hs.2

/-- C6: for every prior status (idle, recording, or processing), handling
an `error` event results in status `idle`; and the (spec-modelled)
Activation Controller handles a gateway completion for the current
session — success or failure — by returning to `Idle`, so no failure path
leaves it outside `Idle`. -/
theorem c6_error_returns_to_idle :
    (∀ (s : AppStatus) (msg : String),
      appHandleEvent s (AppEvent.errorEvt msg) = AppStatus.idle) ∧
    (∀ (s : Ctrl) (ok : Bool), s.phase = Phase.processing →
      ((ctrlStep s (CtrlEvent.complete s.sessionId ok)).1).phase = Phase.idle) := by
  constructor
  · intro s msg
    cases s <;> rfl
  · intro s ok h
    simp [ctrlStep, h]

/-- Witness for C6 at concrete inputs: an error received while processing
puts the UI at idle, and a failed completion for the current session puts
the controller at idle. -/
theorem c6_witness :
    appHandleEvent AppStatus.processing (AppEvent.errorEvt "BackendUnavailable")
      = AppStatus.idle ∧
    ((ctrlStep ⟨Phase.processing, 1, [], [1]⟩ (CtrlEvent.complete 1 false)).1).phase
      = Phase.idle :=
  ⟨c6_error_returns_to_idle.1 AppStatus.processing "BackendUnavailable",
   c6_error_returns_to_idle.2 ⟨Phase.processing, 1, [], [1]⟩ false rfl⟩

/-- C7: for every sequence of `audio-amplitude` payloads, including
non-numeric and non-finite ones, the per-event clamped value lies in
[0, 1], and the exponentially smoothed amplitude (starting from 0, moved a
factor 0.25 toward the clamped value at each event) stays in [0, 1] after
every update. -/
theorem c7_amplitude_bounded :
    ∀ (ps : List AmplitudeRaw) (p : AmplitudeRaw),
      (0 ≤ clampAmplitude p ∧ clampAmplitude p ≤ 1) ∧
      (0 ≤ amplitudeRun ps ∧ amplitudeRun ps ≤ 1) := by
  intro ps p
  exact ⟨clampAmplitude_bounds p, amplitudeFold_bounds ps 0 (le_refl 0) (by norm_num)⟩

/-- C8: in the recording-bar waveform components, a bar driven by any
sequence of (unclamped) targets stays within [0.1, 1.0] after every update
step, from either initial fill (0.12 in the unnamed variant, 0.3 in
RecordingBarWindow.tsx): the target is clamped to [0.1, 1.0] and the new
value is the convex combination 0.6 of the previous value plus 0.4 of the
target. -/
theorem c8_waveform_bounded :
    ∀ ts : List ℚ,
      (1 / 10 ≤ barRun (12 / 100) ts ∧ barRun (12 / 100) ts ≤ 1) ∧
      (1 / 10 ≤ barRun (3 / 10) ts ∧ barRun (3 / 10) ts ≤ 1) := by
  intro ts
  exact ⟨barFold_bounds ts (12 / 100) (by norm_num) (by norm_num),
         barFold_bounds ts (3 / 10) (by norm_num) (by norm_num)⟩

theorem ctrlInv_init : CtrlInv ctrlInit := by
  simp [CtrlInv, ctrlInit]

theorem ctrlInv_step (s : Ctrl) (e : CtrlEvent) (h : CtrlInv s) :
    CtrlInv (ctrlStep s e).1 := by
  obtain ⟨ph, sid, op, infl⟩ := s
  obtain ⟨h1, h2, h3⟩ := h
  cases e <;> cases ph <;>
    simp_all [ctrlStep, CtrlInv] <;>
    split_ifs <;> simp_all

theorem ctrlInv_run (tr : List CtrlEvent) : CtrlInv (ctrlRun tr) := by
  suffices h : ∀ s : Ctrl, CtrlInv s →
      CtrlInv (tr.foldl (fun s e => (ctrlStep s e).1) s) from h ctrlInit ctrlInv_init
  induction tr with
  | nil => intro s hs; exact hs
  | cons e tr ih => intro s hs; exact ih _ (ctrlInv_step s e hs)

theorem ctrlInv_lengths (s : Ctrl) (h : CtrlInv s) :
    s.openSessions.length ≤ 1 ∧ s.inflight.length ≤ 1 := by
  obtain ⟨h1, h2, h3⟩ := h
  cases hp : s.phase
  · obtain ⟨ho, hi⟩ := h1 hp
    simp [ho, hi]
  · obtain ⟨ho, hi⟩ := h2 hp
    simp [ho, hi]
  · obtain ⟨ho, hi⟩ := h3 hp
    simp [ho, hi]

theorem ctrlStep_stale (s : Ctrl) (sid : Nat) (ok : Bool) (h : sid ≠ s.sessionId) :
    ctrlStep s (CtrlEvent.complete sid ok) = (s, []) := by
  cases hp : s.phase <;> simp [ctrlStep, hp, h]

/-- C1: over every event trace the (spec-modelled) Activation Controller
keeps at most one audio session open and at most one transcription in
flight, and a completion callback whose session id differs from the
currently tracked one is ignored — the state is unchanged and nothing is
delivered — so a stale result is never delivered after a cancel or
restart. -/
theorem c1_single_session_stale_ignored :
    ∀ tr : List CtrlEvent,
      ((ctrlRun tr).openSessions.length ≤ 1 ∧ (ctrlRun tr).inflight.length ≤ 1) ∧
      (∀ (sid : Nat) (ok : Bool), sid ≠ (ctrlRun tr).sessionId →
        ctrlStep (ctrlRun tr) (CtrlEvent.complete sid ok) = (ctrlRun tr, [])) := by
  intro tr
  exact ⟨ctrlInv_lengths _ (ctrlInv_run tr), fun sid ok h => ctrlStep_stale _ sid ok h⟩

/-- Witness for C1: after an activate and a stop edge the controller is
processing session 1; a completion for the cancelled-and-superseded
session id 0 is dropped without any delivery. -/
theorem c1_witness :
    ((ctrlRun [CtrlEvent.activate, CtrlEvent.stopEdge]).openSessions.length ≤ 1 ∧
      (ctrlRun [CtrlEvent.activate, CtrlEvent.stopEdge]).inflight.length ≤ 1) ∧
    ctrlStep (ctrlRun [CtrlEvent.activate, CtrlEvent.stopEdge]) (CtrlEvent.complete 0 true)
      = (ctrlRun [CtrlEvent.activate, CtrlEvent.stopEdge], []) :=
  ⟨(c1_single_session_stale_ignored [CtrlEvent.activate, CtrlEvent.stopEdge]).1,
   (c1_single_session_stale_ignored [CtrlEvent.activate, CtrlEvent.stopEdge]).2 0 true
     (by decide)⟩

/-- C2 (code-bug evaluation): the recording bar's cancel button invokes
exactly the same backend command as its confirm button, `stop_recording`,
so an explicit cancel while recording does not command an abort distinct
from the normal finalize-and-transcribe stop. -/
theorem c2_cancel_invokes_stop :
    handleCancelCommand = handleConfirmCommand ∧ handleCancelCommand = "stop_recording" :=
  ⟨rfl, rfl⟩

/-- C3 (code-bug evaluation): the configuration with the function key `f5`
and no modifiers — offered as a preset in the same file — is rejected by
both hotkey-update paths before `update_hotkey` is ever invoked, although
`f5` is one of the dedicated function keys. -/
theorem c3_function_key_preset_rejected :
    applyHotkeyValidation ⟨[], "f5"⟩ =
      ApplyAction.rejected "请至少选择一个修饰键（如 Ctrl、Shift、Cmd）" ∧
    saveHotkeyValidation ⟨[], "f5"⟩ =
      ApplyAction.rejected "请至少按住一个修饰键（如 Cmd、Ctrl、Shift）" ∧
    (⟨[], "f5"⟩ : HotkeyConfig) ∈ PRESET_HOTKEYS ∧ "f5" ∈ FUNCTION_KEYS := by
  refine ⟨rfl, rfl, ?_, ?_⟩ <;> decide

/-- C4: hotkey reconfiguration is atomic — when OS registration rejects
the new accelerator, the registered binding returned by
`get_hotkey_config` and the displayed current hotkey are both unchanged;
and whenever the display changes at all, registration succeeded, the
display shows the newly formatted binding and the backend registered
exactly that binding. -/
theorem c4_update_hotkey_atomic :
    ∀ (mac : Bool) (osAccepts : HotkeyConfig → Bool) (st : SettingsUiState)
      (b : HotkeyBackend),
      (osAccepts st.hotkeyConfig = false →
        get_hotkey_config (applyHotkey mac osAccepts st b).2 = get_hotkey_config b ∧
        (applyHotkey mac osAccepts st b).1.currentHotkeyDisplay
          = st.currentHotkeyDisplay) ∧
      ((applyHotkey mac osAccepts st b).1.currentHotkeyDisplay
          ≠ st.currentHotkeyDisplay →
        osAccepts st.hotkeyConfig = true ∧
        (applyHotkey mac osAccepts st b).1.currentHotkeyDisplay
          = formatHotkey st.hotkeyConfig mac ∧
        get_hotkey_config (applyHotkey mac osAccepts st b).2 = st.hotkeyConfig) := by
  intro mac osAccepts st b
  by_cases hm : st.hotkeyConfig.modifiers.length = 0
  · constructor
    · intro _
      simp [applyHotkey, hm, get_hotkey_config]
    · intro hch
      exact absurd (by simp [applyHotkey, hm]) hch
  · by_cases hk : st.hotkeyConfig.key = "space"
    · constructor
      · intro _
        simp [applyHotkey, hm, hk, get_hotkey_config]
      · intro hch
        exact absurd (by simp [applyHotkey, hm, hk]) hch
    · by_cases hos : osAccepts st.hotkeyConfig = true
      · constructor
        · intro h0
          rw [hos] at h0
          cases h0
        · intro _
          refine ⟨hos, ?_, ?_⟩ <;>
            simp [applyHotkey, hm, hk, updateHotkey, hos, get_hotkey_config]
      · have hos2 : osAccepts st.hotkeyConfig = false := by
          simpa using hos
        constructor
        · intro _
          constructor <;>
            simp [applyHotkey, hm, hk, updateHotkey, hos2, get_hotkey_config]
        · intro hch
          exact absurd (by simp [applyHotkey, hm, hk, updateHotkey, hos2]) hch

/-- Witness for C4: a rejected registration leaves the registered binding
and the displayed hotkey exactly as they were. -/
theorem c4_witness :
    get_hotkey_config (applyHotkey false (fun _ => false)
        ⟨⟨["ctrl"], "r"⟩, "Ctrl + Shift + R", ""⟩ ⟨⟨["ctrl", "shift"], "r"⟩⟩).2
      = get_hotkey_config ⟨⟨["ctrl", "shift"], "r"⟩⟩ ∧
    (applyHotkey false (fun _ => false)
        ⟨⟨["ctrl"], "r"⟩, "Ctrl + Shift + R", ""⟩ ⟨⟨["ctrl", "shift"], "r"⟩⟩).1.currentHotkeyDisplay
      = "Ctrl + Shift + R" :=
  (c4_update_hotkey_atomic false (fun _ => false)
    ⟨⟨["ctrl"], "r"⟩, "Ctrl + Shift + R", ""⟩ ⟨⟨["ctrl", "shift"], "r"⟩⟩).1 rfl

theorem capturedModifiers_spec (e : KeyEvent) :
    (capturedModifiers e).Nodup ∧
      ∀ m ∈ capturedModifiers e, m ∈ ["cmd", "ctrl", "alt", "shift"] := by
  obtain ⟨k, mk, ck, ak, sk⟩ := e
  cases mk <;> cases ck <;> cases ak <;> cases sk <;>
    simp [capturedModifiers]

/-- C5: deleting an id from the history list removes exactly the items
whose id equals it — the result is a sublist of the original (relative
order unchanged) and every item's multiplicity is preserved unless its id
matches, in which case it drops to zero — and neither the (spec-modelled)
single delete nor clear-all changes the UsageStats record. -/
theorem c5_delete_exact_stats_frame :
    ∀ (l : List HistoryItem) (i : String) (st : HistoryStore),
      List.Sublist (handleDelete l i) l ∧
      (∀ x : HistoryItem,
        (handleDelete l i).count x = if x.id = i then 0 else l.count x) ∧
      (deleteHistoryItem st i).stats = st.stats ∧
      (clearHistory st).stats = st.stats := by
  intro l i st
  refine ⟨List.filter_sublist l, ?_, rfl, rfl⟩
  intro x
  by_cases hx : x.id = i
  · rw [if_pos hx, List.count_eq_zero]
    intro hmem
    rw [handleDelete, List.mem_filter] at hmem
    simp [hx] at hmem
  · rw [if_neg hx]
    exact List.count_filter (by simp [hx])

/-- C9: the hotkey capture handler ignores a pure modifier press, and
every captured combination has a key that is either a single character
with no upper-case ASCII letter (it was lower-cased) or a string starting
with `f` of length at most 3, together with a duplicate-free modifier list
drawn from cmd, ctrl, alt, shift. -/
theorem c9_capture_invariants :
    ∀ e : KeyEvent,
      (e.key ∈ MODIFIER_KEY_NAMES → handleKeyDown e = none) ∧
      (∀ cpt : CapturedKey, handleKeyDown e = some cpt →
        ((cpt.key.length = 1 ∧
            ∀ c ∈ cpt.key.data, ¬(65 ≤ c.toNat ∧ c.toNat ≤ 90)) ∨
          (jsStartsWith cpt.key "f" = true ∧ cpt.key.length ≤ 3)) ∧
        cpt.modifiers.Nodup ∧
        ∀ m ∈ cpt.modifiers, m ∈ ["cmd", "ctrl", "alt", "shift"]) := by
  intro e
  constructor
  · intro hk
    simp [handleKeyDown, hk]
  · intro cpt hc
    simp only [handleKeyDown] at hc
    split_ifs at hc with h1 h2 h3
    · cases hc
      exact ⟨Or.inr h2, (capturedModifiers_spec e).1, (capturedModifiers_spec e).2⟩
    · cases hc
      refine ⟨Or.inl ⟨h3, ?_⟩, (capturedModifiers_spec e).1, (capturedModifiers_spec e).2⟩
      intro c hcm
      simp only [jsToLower] at hcm
      rw [List.mem_map] at hcm
      obtain ⟨a, _, rfl⟩ := hcm
      exact lowerChar_not_upper a

/-- Witness for C9: the pure modifier press `Control` is ignored, and the
combination captured from a cmd+shift+F5 press satisfies every stated
shape property. -/
theorem c9_witness :
    handleKeyDown ⟨"Control", false, false, false, false⟩ = none ∧
    ((("f5" : String).length = 1 ∧
        ∀ c ∈ ("f5" : String).data, ¬(65 ≤ c.toNat ∧ c.toNat ≤ 90)) ∨
      (jsStartsWith "f5" "f" = true ∧ ("f5" : String).length ≤ 3)) ∧
    (["cmd", "shift"] : List String).Nodup ∧
    (∀ m ∈ (["cmd", "shift"] : List String), m ∈ ["cmd", "ctrl", "alt", "shift"]) :=
  ⟨(c9_capture_invariants ⟨"Control", false, false, false, false⟩).1 (by decide),
   (c9_capture_invariants ⟨"F5", true, false, false, true⟩).2
     ⟨["cmd", "shift"], "f5"⟩ (by decide)⟩

/-- C10: the save-API-key handler returns early (invoking nothing) when
the entered key is empty or whitespace-only, and whenever it does invoke
`set_api_key` the argument is non-empty and equals the entered text with
surrounding whitespace removed. -/
theorem c10_api_key_trimmed :
    ∀ s : String,
      ((∀ c ∈ s.data, isJsWhitespace c = true) → handleSaveApiKey s = none) ∧
      (∀ k : String, handleSaveApiKey s = some k → k ≠ "" ∧ k = jsTrim s) := by
  intro s
  constructor
  · intro hws
    have h1 : s.data.dropWhile isJsWhitespace = [] :=
      List.dropWhile_eq_nil_iff.mpr hws
    have h2 : jsTrim s = "" := by
      rw [jsTrim, h1]
      rfl
    simp [handleSaveApiKey, h2]
  · intro k hk
    rw [handleSaveApiKey] at hk
    split_ifs at hk with h
    cases hk
    exact ⟨h, rfl⟩

/-- Witness for C10: a whitespace-only entry invokes nothing, and the key
passed for a padded entry is the trimmed, non-empty text. -/
theorem c10_witness :
    handleSaveApiKey " \t " = none ∧
    (("sk-test" : String) ≠ "" ∧ "sk-test" = jsTrim "  sk-test  ") :=
  ⟨(c10_api_key_trimmed " \t ").1 (by decide),
   (c10_api_key_trimmed "  sk-test  ").2 "sk-test" (by decide)⟩
